import Mathlib

/-!
Verification of the leadsprint autonomous lead-generation agent
(`src/autonomous-agent.js`).

The JavaScript source is shallowly embedded: strings are modelled as
`List Char` (`Str`), external collaborators (EXA search, the OpenRouter
language-model endpoint, Notion, GitHub, the Railway CLI and GraphQL API,
the Telegram bot transport) are modelled as explicit outcome records
("worlds") passed to the embedded functions, and JavaScript exceptions are
modelled with `Except`.  Nondeterminism (`Date.now()`, `Math.random()`) is
modelled by explicit oracle parameters.  JavaScript `toLowerCase` is
modelled on the ASCII range via `Char.toLower`.
-/

set_option maxHeartbeats 1000000

namespace Leadsprint

abbrev Str := List Char

/-- ASCII lowering, modelling JS `String.prototype.toLowerCase` on the
ASCII inputs this development reasons about. -/
def low (s : Str) : Str := s.map Char.toLower

/-- Whitespace class used by JS `trim` / `\s` (ASCII part). -/
def isWS (c : Char) : Bool :=
  c = ' ' || c = '\t' || c = '\n' || c = '\r' || c = '\x0b' || c = '\x0c'

def trimL (s : Str) : Str := s.dropWhile isWS

def trimR (s : Str) : Str := (s.reverse.dropWhile isWS).reverse

/-- JS `String.prototype.trim`. -/
def trim (s : Str) : Str := trimR (trimL s)

/-- Boolean prefix test (structural, so that it reduces definitionally
even when the tail of the second list is a variable). -/
def isPre : Str → Str → Bool
  | [], _ => true
  | _ :: _, [] => false
  | a :: as, b :: bs => a == b && isPre as bs

/-- Boolean suffix test. -/
def isSuf (p s : Str) : Bool := isPre p.reverse s.reverse

/-- JS `hay.includes(needle)`. -/
def containsSub (hay needle : Str) : Bool :=
  if isPre needle hay then true
  else
    match hay with
    | [] => false
    | _ :: t => containsSub t needle

/-- `generatePracticeId` processing step `replace(/[^a-z0-9]/g, '-')`:
the character class kept by that regex. -/
def isLowerAlnum (c : Char) : Bool :=
  ('a' ≤ c && c ≤ 'z') || ('0' ≤ c && c ≤ '9')

/-- `replace(/^www\./, '')`. -/
def stripWww (s : Str) : Str :=
  if isPre "www.".toList s then s.drop 4 else s

/-- `replace(/\.(com|co\.uk|org|net)$/, '')`. -/
def stripTld (s : Str) : Str :=
  if isSuf ".co.uk".toList s then s.take (s.length - 6)
  else if isSuf ".com".toList s then s.take (s.length - 4)
  else if isSuf ".org".toList s then s.take (s.length - 4)
  else if isSuf ".net".toList s then s.take (s.length - 4)
  else s

/-- The hyphen-run collapsing replace (regex: one-or-more hyphens, global,
replaced by a single hyphen). -/
def collapseHyphens : Str → Str
  | [] => []
  | [c] => [c]
  | a :: b :: t =>
    if a = '-' && b = '-' then collapseHyphens (b :: t)
    else a :: collapseHyphens (b :: t)

/-- The edge-hyphen stripping replace (regex: leading-hyphen or
trailing-hyphen, global): it removes one hyphen at position 0 and one
hyphen at the last position. -/
def stripEdgeHyphens (s : Str) : Str :=
  let s1 := if s.head? = some '-' then s.tail else s
  if s1.getLast? = some '-' then s1.dropLast else s1

/-- `generatePracticeId(domain)` (src/autonomous-agent.js:2042-2051):
strip `www.`, strip a common TLD, lower-case, turn every character
outside `[a-z0-9]` into `-`, collapse hyphen runs, strip one leading and
one trailing hyphen, then truncate to 25 characters. -/
def generatePracticeId (domain : Str) : Str :=
  let s1 := stripWww domain
  let s2 := stripTld s1
  let s3 := low s2
  let s4 := s3.map (fun c => if isLowerAlnum c then c else '-')
  let s5 := collapseHyphens s4
  let s6 := stripEdgeHyphens s5
  s6.take 25

/-! ### Facts about `generatePracticeId` (claim C5) -/

theorem mem_collapseHyphens {c : Char} : ∀ {s : Str}, c ∈ collapseHyphens s → c ∈ s
  | [], h => h
  | [_], h => h
  | a :: b :: t, h => by
    unfold collapseHyphens at h
    split at h
    · exact List.mem_cons_of_mem a (mem_collapseHyphens h)
    · rcases List.mem_cons.mp h with h' | h'
      · exact h' ▸ List.mem_cons_self a (b :: t)
      · exact List.mem_cons_of_mem a (mem_collapseHyphens h')

theorem collapseHyphens_head? : ∀ (a : Char) (t : Str),
    (collapseHyphens (a :: t)).head? = some a := by
  intro a t
  induction t generalizing a with
  | nil => rfl
  | cons b t' ih =>
    unfold collapseHyphens
    split
    · next hc =>
      rw [ih b]
      simp only [Bool.and_eq_true, decide_eq_true_eq] at hc
      rw [hc.1, hc.2]
    · rfl

/-- No two adjacent hyphens. -/
def noDoubleHyphen : Str → Prop
  | a :: b :: t => ¬(a = '-' ∧ b = '-') ∧ noDoubleHyphen (b :: t)
  | _ => True

theorem noDoubleHyphen_collapseHyphens : ∀ s : Str, noDoubleHyphen (collapseHyphens s)
  | [] => trivial
  | [_] => trivial
  | a :: b :: t => by
    unfold collapseHyphens
    split
    · exact noDoubleHyphen_collapseHyphens (b :: t)
    · next hc =>
      have hrec := noDoubleHyphen_collapseHyphens (b :: t)
      have hhd := collapseHyphens_head? b t
      rcases hco : collapseHyphens (b :: t) with _ | ⟨x, xs⟩
      · trivial
      · rw [hco] at hhd hrec
        simp only [List.head?_cons, Option.some.injEq] at hhd
        refine ⟨?_, hrec⟩
        intro ⟨ha, hb⟩
        exact hc (by simp [ha, hhd ▸ hb])

theorem head?_take {l : Str} {n : Nat} (hn : n ≠ 0) : (l.take n).head? = l.head? := by
  cases l with
  | nil => simp
  | cons c t => cases n with
    | zero => exact absurd rfl hn
    | succ m => simp

/-- C5, amended: `generatePracticeId` is deterministic, its output has
length at most 25, draws all characters from `[a-z0-9-]`, and never
starts with a hyphen.  (The output can be empty, and the final 25-char
truncation can leave a trailing hyphen — see the counterexample.) -/
theorem generatePracticeId_spec (domain : Str) :
    generatePracticeId domain = generatePracticeId domain ∧
    (generatePracticeId domain).length ≤ 25 ∧
    (∀ c ∈ generatePracticeId domain, isLowerAlnum c = true ∨ c = '-') ∧
    (generatePracticeId domain).head? ≠ some '-' := by
  refine ⟨rfl, ?_, ?_, ?_⟩
  · simpa [generatePracticeId] using Nat.min_le_right _ 25
  · intro c hc
    unfold generatePracticeId at hc
    have hc6 := (List.take_sublist 25 _).subset hc
    set s4 := (low (stripTld (stripWww domain))).map
      (fun c => if isLowerAlnum c then c else '-') with hs4
    set s5 := collapseHyphens s4 with hs5
    have hc5 : c ∈ s5 := by
      unfold stripEdgeHyphens at hc6
      simp only at hc6
      have hsub : ∀ s1 : Str, c ∈ (if s1.getLast? = some '-' then s1.dropLast else s1) →
          c ∈ s1 := by
        intro s1 h
        split at h
        · exact (List.dropLast_sublist s1).subset h
        · exact h
      have h1 := hsub _ hc6
      split at h1
      · exact (List.tail_sublist s5).subset h1
      · exact h1
    have hc4 : c ∈ s4 := mem_collapseHyphens hc5
    rw [hs4] at hc4
    rcases List.mem_map.mp hc4 with ⟨x, _, hx⟩
    by_cases h : isLowerAlnum x = true
    · left; rw [← hx]; simp [h]
    · right; rw [← hx]; simp [h]
  · unfold generatePracticeId
    set s4 := (low (stripTld (stripWww domain))).map
      (fun c => if isLowerAlnum c then c else '-') with hs4
    set s5 := collapseHyphens s4 with hs5
    have hnd : noDoubleHyphen s5 := noDoubleHyphen_collapseHyphens s4
    rw [head?_take (by norm_num)]
    unfold stripEdgeHyphens
    simp only
    -- the intermediate string (after the leading-hyphen strip) never
    -- starts with a hyphen:
    have h1 : (if s5.head? = some '-' then s5.tail else s5).head? ≠ some '-' := by
      split
      · next hh =>
        rcases hm : s5 with _ | ⟨a, t⟩
        · simp
        · rw [hm] at hh hnd
          simp only [List.head?_cons, Option.some.injEq] at hh
          rcases t with _ | ⟨b, t'⟩
          · simp
          · simp only [List.tail_cons, List.head?_cons, ne_eq, Option.some.injEq]
            exact fun hb => hnd.1 ⟨hh, hb⟩
      · next hh => exact hh
    -- and dropping the last element preserves that:
    set s1 := if s5.head? = some '-' then s5.tail else s5 with hs1
    have hdl : ∀ l : Str, l.dropLast.head? = none ∨ l.dropLast.head? = l.head? := by
      intro l
      rcases l with _ | ⟨x, _ | ⟨y, t⟩⟩
      · left; rfl
      · left; rfl
      · right; rw [List.dropLast_cons₂]; rfl
    split
    · rcases hdl s1 with h | h
      · rw [h]; simp
      · rw [h]; exact h1
    · exact h1

/-- C5, counterexample to the claim as stated: the 25-char truncation can
leave a trailing hyphen, and the id can be empty (so it cannot always
match `^[a-z0-9-]{1,25}$` with no trailing hyphen). -/
theorem generatePracticeId_counterexample :
    (generatePracticeId "abcdefghijklmnopqrstuvwx.z.com".toList).getLast? = some '-' ∧
    generatePracticeId "www.".toList = [] := by decide

/-! ### Custom Filter Engine (`passesCustomFilters`, claim C8) -/

/-- A discovered candidate as consumed by `passesCustomFilters`: the raw
EXA search result fields `title` and `text` (the body text; absent fields
are the empty string, matching the `|| ''` in the source). -/
structure Candidate where
  title : Str
  text : Str
deriving DecidableEq

/-- The keyword-stripping replace of the exclusion branch (regex:
`exclude` or `avoid`, global, replaced by the empty string).  The scan is
left-to-right with the alternatives tried in order, non-overlapping. -/
def removeEA : Str → Str
  | 'e' :: 'x' :: 'c' :: 'l' :: 'u' :: 'd' :: 'e' :: t => removeEA t
  | 'a' :: 'v' :: 'o' :: 'i' :: 'd' :: t => removeEA t
  | c :: t => c :: removeEA t
  | [] => []

/-- The keyword-stripping replace of the requirement branch (regex:
`require` or `must`, global). -/
def removeRM : Str → Str
  | 'r' :: 'e' :: 'q' :: 'u' :: 'i' :: 'r' :: 'e' :: t => removeRM t
  | 'm' :: 'u' :: 's' :: 't' :: t => removeRM t
  | c :: t => c :: removeRM t
  | [] => []

/-- JS `split(' ')`: split on single space characters, keeping empty
pieces. -/
def splitSp : Str → List Str
  | [] => [[]]
  | c :: t =>
    if c = ' ' then [] :: splitSp t
    else
      match splitSp t with
      | [] => [[c]]
      | w :: ws => (c :: w) :: ws

/-- One iteration of the `passesCustomFilters` loop: does this filter
string reject the candidate (src/autonomous-agent.js:887-918)? -/
def filterRejects (titleLower textLower : Str) (filter : Str) : Bool :=
  let filterLower := low filter
  if containsSub filterLower "exclude".toList || containsSub filterLower "avoid".toList then
    let excludeTerms := splitSp (trim (removeEA filterLower))
    excludeTerms.any fun term =>
      !term.isEmpty && (containsSub titleLower term || containsSub textLower term)
  else if containsSub filterLower "require".toList || containsSub filterLower "must".toList then
    let requireTerms := splitSp (trim (removeRM filterLower))
    !(requireTerms.any fun term =>
      !term.isEmpty && (containsSub titleLower term || containsSub textLower term))
  else false

/-- `passesCustomFilters(practice, filters)`: return `false` on the first
rejecting filter, `true` if none rejects. -/
def passesCustomFilters (practice : Candidate) : List Str → Bool
  | [] => true
  | f :: rest =>
    if filterRejects (low practice.title) (low practice.text) f then false
    else passesCustomFilters practice rest

/-! ### Facts about the Custom Filter Engine (claim C8) -/

theorem containsSub_cons_eq (c : Char) (t n : Str) :
    containsSub (c :: t) n = (isPre n (c :: t) || containsSub t n) := by
  rw [containsSub]
  split <;> simp_all

theorem removeEA_eq_self : ∀ {s : Str},
    containsSub s "exclude".toList = false →
    containsSub s "avoid".toList = false → removeEA s = s := by
  intro s
  induction s using removeEA.induct with
  | case1 t ih =>
    intro h1 _
    rw [show containsSub ('e' :: 'x' :: 'c' :: 'l' :: 'u' :: 'd' :: 'e' :: t)
      "exclude".toList = true from rfl] at h1
    simp at h1
  | case2 t ih =>
    intro _ h2
    rw [show containsSub ('a' :: 'v' :: 'o' :: 'i' :: 'd' :: t)
      "avoid".toList = true from rfl] at h2
    simp at h2
  | case3 c t hne1 hne2 ih =>
    intro h1 h2
    rw [containsSub_cons_eq] at h1 h2
    simp only [Bool.or_eq_false_iff] at h1 h2
    have hstep : removeEA (c :: t) = c :: removeEA t := by
      rw [removeEA.eq_def]
      split
      · next t1 heq =>
        exfalso
        injection heq with e1 e2
        exact hne1 t1 e1 e2
      · next t1 heq =>
        exfalso
        injection heq with e1 e2
        exact hne2 t1 e1 e2
      · next c2 t2 heq =>
        injection heq with e1 e2
        rw [e1, e2]
      · next heq => exact absurd heq (by simp)
    rw [hstep, ih h1.2 h2.2]
  | case4 =>
    intro _ _
    rfl

theorem splitSp_single : ∀ {x : Str}, x ≠ [] → (∀ c ∈ x, c ≠ ' ') →
    splitSp x = [x] := by
  intro x
  induction x with
  | nil => intro h _; exact absurd rfl h
  | cons c t ih =>
    intro _ hsp
    have hc : c ≠ ' ' := hsp c (List.mem_cons_self c t)
    unfold splitSp
    rw [if_neg hc]
    cases t with
    | nil => rfl
    | cons d t' =>
      rw [ih (by simp) (fun a ha => hsp a (List.mem_cons_of_mem c ha))]

theorem dropWhile_isWS_eq_self {x : Str} (h : ∀ c ∈ x, isWS c = false) :
    x.dropWhile isWS = x := by
  cases x with
  | nil => rfl
  | cons c t =>
    rw [List.dropWhile_cons, if_neg]
    simp [h c (List.mem_cons_self c t)]

theorem trim_space_word {x : Str} (h : ∀ c ∈ x, isWS c = false) :
    trim (' ' :: x) = x := by
  unfold trim trimL trimR
  rw [List.dropWhile_cons, if_pos (by rfl)]
  rw [dropWhile_isWS_eq_self h]
  rw [dropWhile_isWS_eq_self (fun c hc => h c (List.mem_reverse.mp hc))]
  exact List.reverse_reverse x

theorem low_append (a b : Str) : low (a ++ b) = low a ++ low b :=
  List.map_append Char.toLower a b

theorem passes_false_of_rejecting_mem (cand : Candidate) (f : Str)
    (hrej : filterRejects (low cand.title) (low cand.text) f = true) :
    ∀ (pre post : List Str), passesCustomFilters cand (pre ++ f :: post) = false := by
  intro pre
  induction pre with
  | nil =>
    intro post
    rw [List.nil_append, passesCustomFilters, if_pos hrej]
  | cons g pre' ih =>
    intro post
    rw [List.cons_append, passesCustomFilters]
    split
    · rfl
    · exact ih post

/-- The exclusion filter `"exclude " ++ X` rejects any candidate whose
title or body text contains `low X`, provided `low X` is a nonempty
whitespace-free word with no embedded `exclude` / `avoid` occurrence. -/
theorem filterRejects_exclude (titleLower textLower : Str) (X : Str)
    (hne : low X ≠ [])
    (hword : ∀ c ∈ low X, isWS c = false)
    (hkw1 : containsSub (low X) "exclude".toList = false)
    (hkw2 : containsSub (low X) "avoid".toList = false)
    (hhit : containsSub titleLower (low X) = true ∨ containsSub textLower (low X) = true) :
    filterRejects titleLower textLower ("exclude ".toList ++ X) = true := by
  have hfl : low ("exclude ".toList ++ X) = "exclude ".toList ++ low X := by
    rw [low_append, show low "exclude ".toList = "exclude ".toList from by decide]
  rw [filterRejects]
  simp only [hfl]
  rw [if_pos]
  · -- the exclusion branch fires and its term scan hits `low X`
    rw [show removeEA ("exclude ".toList ++ low X) = ' ' :: removeEA (low X) from rfl]
    rw [removeEA_eq_self hkw1 hkw2]
    rw [trim_space_word hword]
    rw [splitSp_single hne (fun c hc he => by
      subst he
      simpa [isWS] using hword ' ' hc)]
    simp only [List.any_cons, List.any_nil, Bool.or_false]
    have hemp : (low X).isEmpty = false := by
      cases hm : low X with
      | nil => exact absurd hm hne
      | cons a t => rfl
    rw [hemp]
    rcases hhit with h | h <;> simp [h]
  · rw [show containsSub ("exclude ".toList ++ low X) "exclude".toList = true from rfl]
    simp

/-- C8, amended: a filter entry `"exclude X"` rejects every candidate
whose title or body text contains `X` case-insensitively — provided the
lower-cased `X` is a nonempty single word that does not itself contain
`exclude` or `avoid` (the keyword-stripping replace deletes such embedded
occurrences and then scans for the mangled remainder, see the
counterexample). -/
theorem passesCustomFilters_exclude_spec (cand : Candidate)
    (pre post : List Str) (X : Str)
    (hne : low X ≠ [])
    (hword : ∀ c ∈ low X, isWS c = false)
    (hkw1 : containsSub (low X) "exclude".toList = false)
    (hkw2 : containsSub (low X) "avoid".toList = false)
    (hhit : containsSub (low cand.title) (low X) = true ∨
      containsSub (low cand.text) (low X) = true) :
    passesCustomFilters cand (pre ++ ("exclude ".toList ++ X) :: post) = false :=
  passes_false_of_rejecting_mem cand _
    (filterRejects_exclude _ _ X hne hword hkw1 hkw2 hhit) pre post

theorem passesCustomFilters_exclude_spec_witness :
    low "Botox".toList ≠ [] ∧
    passesCustomFilters ⟨"Cheap Botox Deals".toList, "".toList⟩
      ([] ++ ("exclude ".toList ++ "Botox".toList) :: []) = false :=
  ⟨by decide,
    passesCustomFilters_exclude_spec ⟨"Cheap Botox Deals".toList, "".toList⟩ [] []
      "Botox".toList (by decide) (by decide) (by decide) (by decide)
      (Or.inl (by decide))⟩

/-- C8, counterexample to the claim as stated: the block word
`botoxavoidclinics` contains `avoid`; the keyword strip mangles it to
`botoxclinics`, which the candidate's title does not contain, so a
candidate whose title does contain the block word still passes. -/
theorem passesCustomFilters_counterexample :
    containsSub (low "botoxavoidclinics GmbH".toList) (low "botoxavoidclinics".toList) = true ∧
    passesCustomFilters ⟨"botoxavoidclinics GmbH".toList, "".toList⟩
      ["exclude botoxavoidclinics".toList] = true := by decide

/-! ### JSON values and the Conversational Configurator (claim C9) -/

/-- JSON values, as produced by the external `JSON.parse` (numbers are
modelled as integers; the completions this system parses carry integral
numbers only). -/
inductive JValue where
  | jnull
  | jbool (b : Bool)
  | jnum (n : Int)
  | jstr (s : Str)
  | jarr (elems : List JValue)
  | jobj (fields : List (Str × JValue))

/-- JS truthiness of a JSON value. -/
def jsTruthy : JValue → Bool
  | .jnull => false
  | .jbool b => b
  | .jnum n => n != 0
  | .jstr s => !s.isEmpty
  | .jarr _ => true
  | .jobj _ => true

/-- JS property read on a parsed JSON value (`undefined` is `none`). -/
def getField (v : JValue) (key : Str) : Option JValue :=
  match v with
  | .jobj fields => (fields.find? (fun kv => kv.1 == key)).map (fun kv => kv.2)
  | _ => none

def isJObj : JValue → Bool
  | .jobj _ => true
  | _ => false

/-- The trailing-fence replace (regex: whitespace then three backticks,
anchored at the end): drop the closing fence, then trailing whitespace. -/
def stripFenceSuffix (t : Str) : Str :=
  if isSuf "```".toList t then trimR (t.take (t.length - 3)) else t

/-- The code-fence stripping of `processConversationalInput`
(src/autonomous-agent.js:624-633): trim, then remove a leading
` ```json ` or ` ``` ` fence and the closing fence. -/
def stripCodeFences (raw : Str) : Str :=
  let s := trim raw
  if isPre "```json".toList s && isSuf "```".toList s then
    stripFenceSuffix ((s.drop 7).dropWhile isWS)
  else if isPre "```".toList s && isSuf "```".toList s then
    stripFenceSuffix ((s.drop 3).dropWhile isWS)
  else s

/-- The degraded reply built when the completion text is not valid JSON. -/
def fallbackReply (aiContent : Str) : JValue :=
  .jobj [("executeWorkflow".toList, .jbool false), ("response".toList, .jstr aiContent)]

/-- `processConversationalInput(messageText, history)`
(src/autonomous-agent.js:548-653).  The language-model transport
(the OpenRouter POST plus extraction of `choices[0].message.content`) is
the `transport` collaborator outcome; the external `JSON.parse` is the
`jsonParse` oracle.  A transport failure is rethrown as
`AI model communication failed`; a parse failure degrades to
`fallbackReply` on the raw completion text. -/
def processConversationalInput (transport : Except Unit Str)
    (jsonParse : Str → Option JValue) : Except Str JValue :=
  match transport with
  | .error _ => .error "AI model communication failed".toList
  | .ok aiContent =>
    match jsonParse (stripCodeFences aiContent) with
    | some parsed => .ok parsed
    | none => .ok (fallbackReply aiContent)

/-- C9: `processConversationalInput` throws exactly when the transport
fails; given a completion text it strips optional code fences, attempts a
strict JSON parse, and on parse failure returns the degraded
`{executeWorkflow: false, response: <raw completion>}` object instead of
failing. -/
theorem processConversationalInput_spec (transport : Except Unit Str)
    (jsonParse : Str → Option JValue) :
    ((processConversationalInput transport jsonParse).isOk = transport.isOk) ∧
    (∀ c, transport = .ok c → jsonParse (stripCodeFences c) = none →
      processConversationalInput transport jsonParse = .ok (fallbackReply c)) ∧
    (∀ c v, transport = .ok c → jsonParse (stripCodeFences c) = some v →
      processConversationalInput transport jsonParse = .ok v) := by
  refine ⟨?_, ?_, ?_⟩
  · cases transport with
    | error e => rfl
    | ok c =>
      rw [processConversationalInput]
      cases jsonParse (stripCodeFences c) <;> rfl
  · intro c hc hp
    subst hc
    rw [processConversationalInput, hp]
  · intro c v hc hp
    subst hc
    rw [processConversationalInput, hp]

theorem processConversationalInput_spec_witness :
    processConversationalInput (.ok "not json at all".toList) (fun _ => none) =
      .ok (fallbackReply "not json at all".toList) :=
  (processConversationalInput_spec (.ok "not json at all".toList) (fun _ => none)).2.1
    "not json at all".toList rfl rfl

/-! ### Chat Session Manager (claim C4) -/

/-- One conversation history entry
(`{role, content, timestamp}`; the ISO timestamp string is abstracted to
the turn's clock value). -/
structure ChatMsg where
  role : Str
  content : JValue
  timestamp : Nat

/-- The per-operator context stored in the `userContexts` map. -/
structure UserContext where
  conversationHistory : List ChatMsg
  lastWorkflowConfig : Option JValue

/-- The `userContexts` map, keyed by Telegram chat id. -/
def ChatState := Nat → Option UserContext

def emptyChatState : ChatState := fun _ => none

/-- The history cap applied after pushing the user message:
`if (history.length > 10) history = history.slice(-10)`. -/
def trimmedHistory (h : List ChatMsg) : List ChatMsg :=
  if h.length > 10 then h.drop (h.length - 10) else h

/-- Write one channel's context into the `userContexts` map. -/
def setCtx (st : ChatState) (chatId : Nat) (ctx : UserContext) : ChatState :=
  fun c => if c = chatId then some ctx else st c

/-- The context update performed by one turn of
`handleConversationalMessage` for its own channel: push the user message,
trim the history to its last 10 entries, and — when the AI call returned
an object — push the assistant reply (with no further trim) and possibly
update `lastWorkflowConfig`.  A thrown or non-object AI response is
caught by the inner catch and pushes nothing further. -/
def turnCtx (ctx : UserContext) (messageText : Str) (ai : Except Str JValue)
    (now : Nat) : UserContext :=
  let hUser := ctx.conversationHistory ++ [⟨"user".toList, .jstr messageText, now⟩]
  let hTrim := trimmedHistory hUser
  match ai with
  | .error _ => ⟨hTrim, ctx.lastWorkflowConfig⟩
  | .ok v =>
    if isJObj v then
      let respContent := match getField v "response".toList with
        | some fv => if jsTruthy fv then fv else .jstr "AI processing completed".toList
        | none => .jstr "AI processing completed".toList
      let cfg := match getField v "executeWorkflow".toList, getField v "workflowConfig".toList with
        | some ew, some wc => if jsTruthy ew && jsTruthy wc then some wc else ctx.lastWorkflowConfig
        | _, _ => ctx.lastWorkflowConfig
      ⟨hTrim ++ [⟨"assistant".toList, respContent, now⟩], cfg⟩
    else ⟨hTrim, ctx.lastWorkflowConfig⟩

/-- One turn of `handleConversationalMessage(chatId, messageText)`
(src/autonomous-agent.js:467-546).  `ai` is the outcome of the
`processConversationalInput` call. -/
def handleConversationalMessage (st : ChatState) (chatId : Nat) (messageText : Str)
    (ai : Except Str JValue) (now : Nat) : ChatState :=
  setCtx st chatId (turnCtx ((st chatId).getD ⟨[], none⟩) messageText ai now)

/-- One inbound conversational message. -/
structure Turn where
  chatId : Nat
  messageText : Str
  ai : Except Str JValue
  now : Nat

def runTurns (st : ChatState) : List Turn → ChatState
  | [] => st
  | t :: rest => runTurns (handleConversationalMessage st t.chatId t.messageText t.ai t.now) rest

def histLen (st : ChatState) (c : Nat) : Nat :=
  match st c with
  | none => 0
  | some ctx => ctx.conversationHistory.length

theorem handle_other_channel (st : ChatState) (chatId : Nat) (m : Str)
    (ai : Except Str JValue) (now : Nat) (c : Nat) (hc : c ≠ chatId) :
    handleConversationalMessage st chatId m ai now c = st c := by
  rw [handleConversationalMessage, setCtx]
  exact if_neg hc

theorem handle_same_channel (st : ChatState) (chatId : Nat) (m : Str)
    (ai : Except Str JValue) (now : Nat) :
    handleConversationalMessage st chatId m ai now chatId =
      some (turnCtx ((st chatId).getD ⟨[], none⟩) m ai now) := by
  rw [handleConversationalMessage, setCtx]
  exact if_pos rfl

/-- The post-user-push trim always leaves at most 10 entries. -/
theorem trimmedHistory_le10 (h : List ChatMsg) : (trimmedHistory h).length ≤ 10 := by
  rw [trimmedHistory]
  split
  · rw [List.length_drop]; omega
  · next hle => omega

theorem turnCtx_le11 (ctx : UserContext) (m : Str) (ai : Except Str JValue) (now : Nat) :
    (turnCtx ctx m ai now).conversationHistory.length ≤ 11 := by
  rw [turnCtx.eq_def]
  have := trimmedHistory_le10
    (ctx.conversationHistory ++ [⟨"user".toList, .jstr m, now⟩])
  cases ai with
  | error e =>
    dsimp only
    exact le_trans this (by norm_num)
  | ok v =>
    dsimp only
    by_cases hobj : isJObj v = true
    · rw [if_pos hobj]
      simp only [List.length_append, List.length_cons, List.length_nil]
      omega
    · rw [if_neg hobj]
      exact le_trans this (by norm_num)

theorem runTurns_histLen (turns : List Turn) :
    ∀ st : ChatState, (∀ c', histLen st c' ≤ 11) →
      ∀ c, histLen (runTurns st turns) c ≤ 11 := by
  induction turns with
  | nil => intro st hst c; exact hst c
  | cons t rest ih =>
    intro st hst c
    rw [runTurns]
    refine ih _ ?_ c
    intro c'
    by_cases hc : c' = t.chatId
    · subst hc
      rw [histLen, handle_same_channel st t.chatId t.messageText t.ai t.now]
      exact turnCtx_le11 _ _ _ _
    · rw [histLen, handle_other_channel st t.chatId t.messageText t.ai t.now c' hc]
      exact hst c'

theorem runTurns_isolated (c : Nat) : ∀ (turns : List Turn) (st₁ st₂ : ChatState),
    st₁ c = st₂ c →
    runTurns st₁ turns c = runTurns st₂ (turns.filter (fun t => t.chatId == c)) c := by
  intro turns
  induction turns with
  | nil => intro st₁ st₂ h; exact h
  | cons t rest ih =>
    intro st₁ st₂ h
    rw [runTurns, List.filter_cons]
    by_cases hc : t.chatId = c
    · rw [if_pos (by simpa using hc), runTurns]
      refine ih _ _ ?_
      subst hc
      rw [handle_same_channel st₁ t.chatId t.messageText t.ai t.now,
        handle_same_channel st₂ t.chatId t.messageText t.ai t.now, h]
    · rw [if_neg (by simpa using hc)]
      refine ih _ _ ?_
      rw [handle_other_channel st₁ t.chatId t.messageText t.ai t.now c
        (fun hh => hc hh.symm)]
      exact h

/-- C4, amended: after any sequence of turns a channel's history holds at
most **11** entries (the user-message push is trimmed to the last 10
entries — oldest dropped first, the trimmed history is a suffix — and the
assistant reply is then appended without a further trim), and a channel's
context is determined solely by the turns addressed to that channel. -/
theorem conversationHistory_bounded_isolated (turns : List Turn) (c : Nat) :
    histLen (runTurns emptyChatState turns) c ≤ 11 ∧
    runTurns emptyChatState turns c =
      runTurns emptyChatState (turns.filter (fun t => t.chatId == c)) c ∧
    (∀ h : List ChatMsg, trimmedHistory h <:+ h) := by
  refine ⟨?_, ?_, ?_⟩
  · exact runTurns_histLen turns emptyChatState (fun _ => by simp [histLen, emptyChatState]) c
  · exact runTurns_isolated c turns emptyChatState emptyChatState rfl
  · intro h
    rw [trimmedHistory]
    split
    · exact List.drop_suffix _ h
    · exact List.suffix_refl h

/-- C4, counterexample to the claim as stated: six successful turns on one
channel leave its history at 11 entries, exceeding the claimed cap of 10. -/
theorem conversationHistory_counterexample :
    histLen (runTurns emptyChatState (List.replicate 6
      ⟨1, "hi".toList, .ok (.jobj [("response".toList, .jstr "ok".toList)]), 0⟩)) 1 = 11 := by
  decide

/-! ### Candidate Discovery (claim C7) -/

/-- A raw EXA search result (`{url, title, text}`; absent fields are the
empty string, matching the `|| ''` accesses in the source). -/
structure ExaResult where
  url : Str
  title : Str
  text : Str
deriving DecidableEq

/-- The structured workflow specification produced by the Conversational
Configurator.  JS-falsy field values (`undefined`, `null`, `""`) are
`none` or the empty string. -/
structure WorkflowConfig where
  leadCount : Nat
  specialty : Option Str
  location : Option Str
  searchQuery : Option Str
  filters : List Str
deriving DecidableEq

/-- The expanded synonym set for a (lower-cased) location filter
(src/autonomous-agent.js:843-852). -/
def locationVariants (location : Str) : List Str :=
  [location] ++
  (if location = "austria".toList then
    ["österreich".toList, "at".toList, ".at".toList, "vienna".toList, "wien".toList,
     "salzburg".toList, "innsbruck".toList, "graz".toList, "linz".toList]
   else []) ++
  (if location = "netherlands".toList then
    ["nederland".toList, "holland".toList, "nl".toList, ".nl".toList, "amsterdam".toList,
     "rotterdam".toList, "den haag".toList, "utrecht".toList]
   else []) ++
  (if location = "germany".toList then
    ["deutschland".toList, "de".toList, ".de".toList, "berlin".toList, "munich".toList,
     "münchen".toList, "hamburg".toList, "cologne".toList, "köln".toList]
   else [])

/-- The haystack of the location filter:
`` `${title} ${url} ${text}`.toLowerCase() ``. -/
def locationSearchText (p : ExaResult) : Str :=
  low (p.title ++ [' '] ++ p.url ++ [' '] ++ p.text)

def locationPasses (location : Str) (p : ExaResult) : Bool :=
  (locationVariants (low location)).any fun v => containsSub (locationSearchText p) v

def specialtyPasses (specialty : Str) (p : ExaResult) : Bool :=
  containsSub (low p.title) (low specialty) || containsSub (low p.text) (low specialty)

/-- `findHealthcarePracticesWithCustomEXA(searchQuery, leadCount, workflowConfig)`
(src/autonomous-agent.js:790-885).  `exaResponse` is the outcome of the
EXA POST (the request asks for `min(2*leadCount, 20)` results); an API
error is rethrown, an empty result list is returned as-is, and otherwise
the optional location and specialty filters are applied before truncating
to `leadCount`. -/
def findHealthcarePracticesWithCustomEXA (exaResponse : Except Str (List ExaResult))
    (leadCount : Nat) (cfg : WorkflowConfig) : Except Str (List ExaResult) :=
  match exaResponse with
  | .error e => .error e
  | .ok results =>
    if results.isEmpty then .ok []
    else
      let ps1 := match cfg.location with
        | some loc => if loc.isEmpty then results else results.filter (locationPasses loc)
        | none => results
      let ps2 := match cfg.specialty with
        | some sp => if sp.isEmpty then ps1 else ps1.filter (specialtyPasses sp)
        | none => ps1
      .ok (ps2.take leadCount)

/-- C7: Discovery never returns more than `leadCount` candidates, and
every returned candidate passes the active location filter (over the
expanded synonym set) and the active specialty filter (case-insensitive
substring match on title or body text). -/
theorem findCustomEXA_spec (exaResponse : Except Str (List ExaResult))
    (leadCount : Nat) (cfg : WorkflowConfig) (out : List ExaResult)
    (hout : findHealthcarePracticesWithCustomEXA exaResponse leadCount cfg = .ok out) :
    out.length ≤ leadCount ∧
    ∀ p ∈ out,
      (∀ loc, cfg.location = some loc → loc ≠ [] → locationPasses loc p = true) ∧
      (∀ sp, cfg.specialty = some sp → sp ≠ [] → specialtyPasses sp p = true) := by
  cases exaResponse with
  | error e => exact absurd hout (by rw [findHealthcarePracticesWithCustomEXA]; simp)
  | ok results =>
    rw [findHealthcarePracticesWithCustomEXA] at hout
    split at hout
    · rcases hout with ⟨⟩
      exact ⟨by simp, by simp⟩
    · rcases hout with ⟨⟩
      constructor
      · simpa using Nat.min_le_right _ leadCount
      · intro p hp
        have hp2 := (List.take_sublist leadCount _).subset hp
        have hmem : ∀ {l : List ExaResult} {q : ExaResult} {f : ExaResult → Bool},
            q ∈ l.filter f → f q = true ∧ q ∈ l :=
          fun h => ⟨List.of_mem_filter h, List.mem_of_mem_filter h⟩
        constructor
        · intro loc hloc hne
          rw [hloc] at hp2
          cases hsp : cfg.specialty with
          | none =>
            rw [hsp] at hp2
            dsimp only at hp2
            rw [if_neg (by simpa using hne)] at hp2
            exact (hmem hp2).1
          | some sp =>
            rw [hsp] at hp2
            dsimp only at hp2
            by_cases hspe : sp.isEmpty = true
            · rw [if_pos hspe, if_neg (by simpa using hne)] at hp2
              exact (hmem hp2).1
            · rw [if_neg hspe] at hp2
              have h3 := (hmem hp2).2
              rw [if_neg (by simpa using hne)] at h3
              exact (hmem h3).1
        · intro sp hsp hne
          rw [hsp] at hp2
          dsimp only at hp2
          rw [if_neg (by simpa using hne)] at hp2
          exact (hmem hp2).1

theorem findCustomEXA_spec_witness :
    ([(⟨"https://x.at".toList, "Wien Botox Klinik".toList, "botox in wien".toList⟩ :
      ExaResult)].length ≤ 2 ∧
    ∀ p ∈ [(⟨"https://x.at".toList, "Wien Botox Klinik".toList,
        "botox in wien".toList⟩ : ExaResult)],
      (∀ loc, (some "austria".toList : Option Str) = some loc → loc ≠ [] →
        locationPasses loc p = true) ∧
      (∀ sp, (some "botox".toList : Option Str) = some sp → sp ≠ [] →
        specialtyPasses sp p = true)) :=
  findCustomEXA_spec
    (.ok [⟨"https://x.at".toList, "Wien Botox Klinik".toList, "botox in wien".toList⟩]) 2
    ⟨2, some "botox".toList, some "austria".toList, none, []⟩ _ rfl

/-! ### Site Extractor (claims C3 and C10) -/

/-- JS `split(/[-.]/)`. -/
def splitDotDash : Str → List Str
  | [] => [[]]
  | c :: t =>
    if c = '-' || c = '.' then [] :: splitDotDash t
    else
      match splitDotDash t with
      | [] => [[c]]
      | w :: ws => (c :: w) :: ws

/-- `word.charAt(0).toUpperCase() + word.slice(1)`. -/
def capFirst : Str → Str
  | [] => []
  | c :: t => Char.toUpper c :: t

/-- `extractCompanyFromDomain(domain)` (src/autonomous-agent.js:2053-2062). -/
def extractCompanyFromDomain (domain : Str) : Str :=
  let base := stripTld (stripWww domain)
  List.intercalate [' '] ((splitDotDash base).map capFirst) ++ " Clinic".toList

/-- `extractPhoneFromDomain(domain)` (src/autonomous-agent.js:1299-1308).
Each `Math.floor(Math.random() * k + m)` draw (a value in `[m, m+k)`) is
modelled as `r % k + m` from the oracle draws `r1 r2 r3`. -/
def extractPhoneFromDomain (domain : Str) (r1 r2 r3 : Nat) : Str :=
  if containsSub domain ".co.uk".toList || containsSub domain ".uk".toList then
    "+44 20 7".toList ++ (toString (r1 % 900 + 100)).toList ++ [' '] ++
      (toString (r2 % 9000 + 1000)).toList
  else if containsSub domain ".au".toList then
    "+61 2 ".toList ++ (toString (r1 % 9000 + 1000)).toList ++ [' '] ++
      (toString (r2 % 9000 + 1000)).toList
  else
    "+1 ".toList ++ (toString (r1 % 900 + 100)).toList ++ "-".toList ++
      (toString (r2 % 900 + 100)).toList ++ "-".toList ++
      (toString (r3 % 9000 + 1000)).toList

/-- The completion collaborator's reply as seen by the two GLM extraction
helpers: the HTTP `ok` flag and `choices[0]?.message?.content`
(`none` = absent). -/
structure GLMResponse where
  ok : Bool
  content : Option Str
deriving DecidableEq

/-- The page-fetch collaborator's reply: `response.ok` and the body. -/
structure FetchResponse where
  ok : Bool
  html : Str
deriving DecidableEq

/-- Collaborator outcomes for one `scrapeHealthcareWebsite` call.
`parsedHost` is `new URL(url).hostname` (`none` = the URL does not
parse, where `new URL` throws both in the try block and again in the
catch block); the two GLM fields are the outcomes of the services and
location extraction requests; `r1 r2 r3` are the phone-synthesis random
draws. -/
structure ScrapeWorld where
  parsedHost : Option Str
  fetchResult : Except Str FetchResponse
  servicesResp : Except Unit GLMResponse
  locationResp : Except Unit GLMResponse
  r1 : Nat
  r2 : Nat
  r3 : Nat

def skipJWS (s : Str) : Str :=
  s.dropWhile fun c => c = ' ' || c = '\t' || c = '\n' || c = '\r'

/-- Parse a JSON string body after its opening quote (escape sequences
are treated as parse failures). -/
def parseJString : Str → Option (Str × Str)
  | [] => none
  | c :: t =>
    if c = '"' then some ([], t)
    else if c = '\\' then none
    else
      match parseJString t with
      | some (w, rest) => some (c :: w, rest)
      | none => none

/-- Parse comma-separated JSON strings up to the closing bracket. -/
def parseItems : Nat → Str → Option (List Str × Str)
  | 0, _ => none
  | fuel + 1, s =>
    match skipJWS s with
    | '"' :: t =>
      match parseJString t with
      | some (w, rest) =>
        match skipJWS rest with
        | ',' :: t2 =>
          match parseItems fuel t2 with
          | some (ws, r) => some (w :: ws, r)
          | none => none
        | ']' :: t2 => some ([w], t2)
        | _ => none
      | none => none
    | _ => none

/-- The external `JSON.parse` restricted to arrays of plain strings;
any other input yields `none`.  (In the caller a parse failure and a
successfully parsed non-array both resolve to `null`, so collapsing them
is behaviour-preserving at `extractServicesWithGLM`'s interface.) -/
def parseJsonStringArray (s : Str) : Option (List Str) :=
  match skipJWS s with
  | '[' :: t =>
    match skipJWS t with
    | ']' :: t2 => if (skipJWS t2).isEmpty then some [] else none
    | _ =>
      match parseItems (t.length + 1) t with
      | some (ws, rest) => if (skipJWS rest).isEmpty then some ws else none
      | none => none
  | _ => none

/-- `extractServicesWithGLM(html)` (src/autonomous-agent.js:1249-1297).
The outbound prompt embeds the stripped page text; the return value
depends only on the completion response: `null` on transport error,
non-ok status, missing content or non-array JSON, otherwise the parsed
array truncated to 4 entries. -/
def extractServicesWithGLM (resp : Except Unit GLMResponse) : Option (List Str) :=
  match resp with
  | .error _ => none
  | .ok r =>
    if r.ok then
      match r.content with
      | none => none
      | some c =>
        match parseJsonStringArray (trim c) with
        | some services => some (services.take 4)
        | none => none
    else none

/-- `extractLocationWithGLM(html)` (src/autonomous-agent.js:1204-1247):
the trimmed completion text, unless it is missing, empty or the literal
string `null`. -/
def extractLocationWithGLM (resp : Except Unit GLMResponse) : Option Str :=
  match resp with
  | .error _ => none
  | .ok r =>
    if r.ok then
      match r.content with
      | none => none
      | some c =>
        let location := trim c
        if !location.isEmpty && !(location == "null".toList) then some location else none
    else none

structure BrandColors where
  primary : Str
  secondary : Str
deriving DecidableEq

/-- The practice profile produced by the Site Extractor. -/
structure PracticeData where
  company : Str
  contactName : Str
  phone : Str
  email : Str
  location : Str
  services : List Str
  practiceType : Str
  practiceId : Str
  leadSource : Str
  leadScore : Nat
  brandColors : BrandColors
  website : Option Str
  isGeneralVersion : Bool
deriving DecidableEq

/-- `scrapeHealthcareWebsite(url)` (src/autonomous-agent.js:1117-1194).
An unparseable URL throws (the catch block re-runs `new URL(url)` and
rethrows); a fetch error or non-ok status is caught and yields the
fallback profile; otherwise the two GLM extractions run, JS-falsy
results (`null`) being replaced by the documented defaults. -/
def scrapeHealthcareWebsite (url : Str) (w : ScrapeWorld) : Except Str PracticeData :=
  match w.parsedHost with
  | none => .error "Invalid URL".toList
  | some domain =>
    let practiceId := generatePracticeId domain
    let companyName := extractCompanyFromDomain domain
    let phone := extractPhoneFromDomain domain w.r1 w.r2 w.r3
    let fallback : PracticeData :=
      { company := companyName,
        contactName := companyName ++ " Team".toList,
        phone := phone,
        email := "info@".toList ++ domain,
        location := "Unknown Location".toList,
        services := ["Healthcare Services".toList],
        practiceType := "beauty".toList,
        practiceId := practiceId,
        leadSource := "fallback-extraction".toList,
        leadScore := 60,
        brandColors := ⟨"#0066cc".toList, "#004499".toList⟩,
        website := none,
        isGeneralVersion := true }
    match w.fetchResult with
    | .error _ => .ok fallback
    | .ok resp =>
      if resp.ok then
        let realServices := (extractServicesWithGLM w.servicesResp).getD
          ["Aesthetic Treatments".toList, "Cosmetic Surgery".toList, "Dermatology".toList]
        let realLocation := (extractLocationWithGLM w.locationResp).getD
          "Professional Healthcare Location".toList
        .ok { company := companyName,
              contactName := companyName ++ " Team".toList,
              phone := phone,
              email := "info@".toList ++ domain,
              location := realLocation,
              services := realServices,
              practiceType := "beauty".toList,
              practiceId := practiceId,
              leadSource := "clinic-team-version".toList,
              leadScore := 80,
              brandColors := ⟨"#0066cc".toList, "#004499".toList⟩,
              website := some url,
              isGeneralVersion := true }
      else .ok fallback

/-- Did the page fetch come back with an ok status? -/
def fetchSucceeded (w : ScrapeWorld) : Bool :=
  match w.fetchResult with
  | .ok r => r.ok
  | .error _ => false

theorem extractLocationWithGLM_ne_nil (resp : Except Unit GLMResponse) (loc : Str)
    (h : extractLocationWithGLM resp = some loc) : loc ≠ [] := by
  rw [extractLocationWithGLM.eq_def] at h
  cases resp with
  | error e => exact absurd h (by simp)
  | ok r =>
    dsimp only at h
    split at h
    · cases hc : r.content with
      | none => rw [hc] at h; exact absurd h (by simp)
      | some c =>
        rw [hc] at h
        dsimp only at h
        split at h
        · next hcond =>
          rcases h with ⟨⟩
          simp only [Bool.and_eq_true, Bool.not_eq_true'] at hcond
          simpa [List.isEmpty_eq_true] using hcond.1
        · exact absurd h (by simp)
    · exact absurd h (by simp)

/-- C3, amended: `scrapeHealthcareWebsite` never throws for a parseable
URL (fetch and extraction failures yield the fallback profile), its
profile's location is always non-empty, and its services list is
non-empty **unless** the services extraction successfully parses an
empty JSON array — JS `[] || defaults` keeps the truthy empty array, so
an empty extraction result is passed through (see the counterexample). -/
theorem scrapeHealthcareWebsite_spec (url : Str) (w : ScrapeWorld) (d : Str)
    (hd : w.parsedHost = some d) :
    ∃ p : PracticeData, scrapeHealthcareWebsite url w = .ok p ∧
      p.location ≠ [] ∧
      (extractServicesWithGLM w.servicesResp ≠ some [] → p.services ≠ []) := by
  rw [scrapeHealthcareWebsite, hd]
  dsimp only
  cases w.fetchResult with
  | error e =>
    refine ⟨_, rfl, by simp, fun _ => by simp⟩
  | ok resp =>
    dsimp only
    by_cases hok : resp.ok = true
    · rw [if_pos hok]
      refine ⟨_, rfl, ?_, ?_⟩
      · cases hl : extractLocationWithGLM w.locationResp with
        | none => simp [hl]
        | some loc =>
          simpa [hl] using extractLocationWithGLM_ne_nil w.locationResp loc hl
      · intro hsv
        cases hs : extractServicesWithGLM w.servicesResp with
        | none => simp [hs]
        | some l =>
          rw [hs] at hsv
          simp only [Option.getD_some, ne_eq, hs]
          intro hl
          exact hsv (by rw [hl])
    · rw [if_neg hok]
      refine ⟨_, rfl, by simp, fun _ => by simp⟩

theorem scrapeHealthcareWebsite_spec_witness :
    ∃ p : PracticeData,
      scrapeHealthcareWebsite "https://clinic.com".toList
        ⟨some "clinic.com".toList, .error "fetch failed".toList, .error (), .error (), 0, 0, 0⟩ =
        .ok p ∧
      p.location ≠ [] ∧
      (extractServicesWithGLM (Except.error () : Except Unit GLMResponse) ≠ some [] →
        p.services ≠ []) :=
  scrapeHealthcareWebsite_spec "https://clinic.com".toList
    ⟨some "clinic.com".toList, .error "fetch failed".toList, .error (), .error (), 0, 0, 0⟩
    "clinic.com".toList rfl

/-- C3, counterexample to the claim as stated: when the fetch succeeds
and the services completion is the JSON text `[]`, the profile's
services list is empty (`[] || defaults` keeps the truthy empty array). -/
theorem scrapeHealthcareWebsite_counterexample :
    (scrapeHealthcareWebsite "https://clinic.com".toList
      ⟨some "clinic.com".toList, .ok ⟨true, "<html></html>".toList⟩,
        .ok ⟨true, some "[]".toList⟩, .error (), 0, 0, 0⟩).toOption.map
      PracticeData.services = some [] := by decide

/-- C10: every profile the Site Extractor produces — on the success path
and on the fallback path alike — has `practiceType = 'beauty'`,
`isGeneralVersion = true`, `contactName = company ++ ' Team'`, the fixed
brand colours, and `leadScore` 80 exactly when the fetch succeeded and
60 otherwise. -/
theorem scrapeHealthcareWebsite_constant_fields (url : Str) (w : ScrapeWorld)
    (p : PracticeData) (hp : scrapeHealthcareWebsite url w = .ok p) :
    p.practiceType = "beauty".toList ∧
    p.isGeneralVersion = true ∧
    p.contactName = p.company ++ " Team".toList ∧
    p.brandColors = ⟨"#0066cc".toList, "#004499".toList⟩ ∧
    (fetchSucceeded w = true → p.leadScore = 80) ∧
    (fetchSucceeded w = false → p.leadScore = 60) := by
  rw [scrapeHealthcareWebsite] at hp
  cases hh : w.parsedHost with
  | none => rw [hh] at hp; exact absurd hp (by simp)
  | some d =>
    rw [hh] at hp
    dsimp only at hp
    cases hf : w.fetchResult with
    | error e =>
      rw [hf] at hp
      rcases hp with ⟨⟩
      refine ⟨rfl, rfl, rfl, rfl, ?_, fun _ => rfl⟩
      intro hsucc
      rw [fetchSucceeded, hf] at hsucc
      dsimp only at hsucc
      exact absurd hsucc (by simp)
    | ok resp =>
      rw [hf] at hp
      dsimp only at hp
      by_cases hok : resp.ok = true
      · rw [if_pos hok] at hp
        rcases hp with ⟨⟩
        refine ⟨rfl, rfl, rfl, rfl, fun _ => rfl, ?_⟩
        intro hfail
        rw [fetchSucceeded, hf] at hfail
        dsimp only at hfail
        rw [hok] at hfail
        exact absurd hfail (by simp)
      · rw [if_neg hok] at hp
        rcases hp with ⟨⟩
        refine ⟨rfl, rfl, rfl, rfl, ?_, fun _ => rfl⟩
        intro hsucc
        rw [fetchSucceeded, hf] at hsucc
        dsimp only at hsucc
        exact absurd hsucc hok

theorem scrapeHealthcareWebsite_constant_fields_witness :
    (⟨"Clinic Clinic".toList ++ " Team".toList, "beauty".toList, true⟩ :
        Str × Str × Bool) = ⟨"Clinic Clinic".toList ++ " Team".toList, "beauty".toList, true⟩ ∧
    ∀ p : PracticeData,
      scrapeHealthcareWebsite "https://clinic.com".toList
        ⟨some "clinic.com".toList, .error "down".toList, .error (), .error (), 0, 0, 0⟩ = .ok p →
      p.practiceType = "beauty".toList ∧ p.leadScore = 60 := by
  refine ⟨rfl, fun p hp => ?_⟩
  have h := scrapeHealthcareWebsite_constant_fields "https://clinic.com".toList
    ⟨some "clinic.com".toList, .error "down".toList, .error (), .error (), 0, 0, 0⟩ p hp
  exact ⟨h.1, h.2.2.2.2.2 rfl⟩

/-! ### Deployment Orchestrator (claims C1 and C6) -/

structure Project where
  id : Str
  name : Str
deriving DecidableEq

structure RailwayEnv where
  id : Str
  name : Str
deriving DecidableEq

structure RailwayService where
  id : Str
deriving DecidableEq

/-- A GitHub repository as returned by the repository-host collaborator
(`owner_login` is `repository.owner.login`). -/
structure Repo where
  name : Str
  full_name : Str
  html_url : Str
  clone_url : Str
  owner_login : Str
deriving DecidableEq

/-- Collaborator outcomes for the Railway deployment steps: the GraphQL
project / environments / service calls, the per-key CLI `variables set`
and GraphQL `variableUpsert` calls, and the CLI `domain generate` /
GraphQL `domainCreate` calls (each collapsed to its thrown-or-value
interface; an ok CLI domain value is the domain extracted from the CLI
output). -/
structure RailwayWorld where
  projectCreate : Except Str Project
  getEnvironments : Except Str (List RailwayEnv)
  serviceCreate : Except Str RailwayService
  cliVarSet : Str → Except Str Unit
  gqlVariableUpsert : Str → Except Str Unit
  cliDomainGenerate : Except Str Str
  gqlDomainCreate : Except Str Str

/-- The observable calls the deployment code makes against its
collaborators, with the identifiers passed. -/
inductive RAction where
  | projectCreate (name : Str)
  | getEnvironments (projectId : Str)
  | serviceCreate (projectId repoFullName : Str)
  | cliVarSet (key serviceId : Str)
  | gqlVariableUpsert (key projectId environmentId serviceId : Str)
  | cliDomainGenerate (serviceId : Str)
  | gqlDomainCreate (projectId environmentId serviceId : Str)
deriving DecidableEq

/-- The three variables set by `railwaySetVariables`. -/
def varKeys : List Str :=
  ["NEXT_PUBLIC_PRACTICE_ID".toList, "NEXT_PUBLIC_COMPANY_NAME".toList, "NODE_ENV".toList]

/-- The CLI loop of `railwaySetVariables`: set each key in order, aborting
on the first failure.  Returns the performed calls and whether all
succeeded. -/
def cliVarLoop (w : RailwayWorld) (serviceId : Str) : List Str → List RAction × Bool
  | [] => ([], true)
  | k :: ks =>
    match w.cliVarSet k with
    | .ok _ =>
      let rest := cliVarLoop w serviceId ks
      (.cliVarSet k serviceId :: rest.1, rest.2)
    | .error _ => ([.cliVarSet k serviceId], false)

/-- The GraphQL fallback loop of `railwaySetVariables`: upsert each key in
order, aborting on the first failure (which is then swallowed). -/
def gqlVarLoop (w : RailwayWorld) (pid eid sid : Str) : List Str → List RAction
  | [] => []
  | k :: ks =>
    match w.gqlVariableUpsert k with
    | .ok _ => .gqlVariableUpsert k pid eid sid :: gqlVarLoop w pid eid sid ks
    | .error _ => [.gqlVariableUpsert k pid eid sid]

/-- `railwaySetVariables(projectId, environmentId, serviceId, practiceData)`
(src/autonomous-agent.js:1697-1792): CLI first; on any CLI failure fall
back to the GraphQL API; a GraphQL failure is logged and swallowed.  The
function never throws; its observable effect is the call trace. -/
def railwaySetVariables (w : RailwayWorld) (pid eid sid : Str) : List RAction :=
  let cli := cliVarLoop w sid varKeys
  if cli.2 then cli.1 else cli.1 ++ gqlVarLoop w pid eid sid varKeys

/-- `railwayCreateDomain(projectId, environmentId, serviceId)`
(src/autonomous-agent.js:1794-1893): CLI `domain generate` first; on CLI
failure fall back to the GraphQL `domainCreate` mutation with the same
identifiers; if both fail, throw a combined error. -/
def railwayCreateDomain (w : RailwayWorld) (pid eid sid : Str) :
    Except Str Str × List RAction :=
  match w.cliDomainGenerate with
  | .ok domain => (.ok domain, [.cliDomainGenerate sid])
  | .error e1 =>
    match w.gqlDomainCreate with
    | .ok domain => (.ok domain, [.cliDomainGenerate sid, .gqlDomainCreate pid eid sid])
    | .error e2 =>
      (.error ("Railway domain creation completely failed: ".toList ++ e1 ++
        " | ".toList ++ e2),
       [.cliDomainGenerate sid, .gqlDomainCreate pid eid sid])

/-- The Railway project name derived from the company name. -/
def projectNameOf (company : Str) : Str :=
  (low company).map (fun c => if isLowerAlnum c then c else '-') ++ "-demo".toList

/-- The try-block of `deployToRailway` (src/autonomous-agent.js:1472-1506):
create the project, list environments, pick the one named `production`
(else the first), create the service, set variables (failures swallowed),
then create the domain.  When the environments list is empty the
`prodEnv.id` interpolation in the logging line throws a TypeError, which
the caller's catch turns into the static fallback. -/
def deployOrchestrate (practice : PracticeData) (repo : Repo) (w : RailwayWorld) :
    Except Str Str × List RAction :=
  let projectName := projectNameOf practice.company
  match w.projectCreate with
  | .error e => (.error e, [.projectCreate projectName])
  | .ok project =>
    let tr1 := [RAction.projectCreate projectName, .getEnvironments project.id]
    match w.getEnvironments with
    | .error e => (.error e, tr1)
    | .ok environments =>
      let prodEnvOpt := (environments.find? (fun env => env.name == "production".toList)).orElse
        (fun _ => environments.head?)
      match w.serviceCreate with
      | .error e => (.error e, tr1 ++ [.serviceCreate project.id repo.full_name])
      | .ok service =>
        let tr2 := tr1 ++ [RAction.serviceCreate project.id repo.full_name]
        match prodEnvOpt with
        | none =>
          (.error "Cannot read properties of undefined".toList, tr2)
        | some prodEnv =>
          let varTrace := railwaySetVariables w project.id prodEnv.id service.id
          match railwayCreateDomain w project.id prodEnv.id service.id with
          | (.ok domain, dTrace) =>
            (.ok ("https://".toList ++ domain), tr2 ++ varTrace ++ dTrace)
          | (.error e, dTrace) => (.error e, tr2 ++ varTrace ++ dTrace)

structure DeploymentResult where
  url : Str
  status : Str
  deploymentMethod : Str
deriving DecidableEq

/-- The predicted GitHub Pages URL used by the static fallback tier. -/
def githubPagesFallbackUrl (repo : Repo) : Str :=
  "https://".toList ++ repo.owner_login ++ ".github.io/".toList ++ repo.name

/-- `deployToRailway(practiceData, repository)`
(src/autonomous-agent.js:1471-1519): run the orchestration; if anything
in it throws, return the predicted GitHub Pages URL with status
`fallback` instead of propagating. -/
def deployToRailway (practice : PracticeData) (repo : Repo) (w : RailwayWorld) :
    DeploymentResult × List RAction :=
  match deployOrchestrate practice repo w with
  | (.ok url, tr) => (⟨url, "deployed".toList, "railway-mcp-direct".toList⟩, tr)
  | (.error _, tr) =>
    (⟨githubPagesFallbackUrl repo, "fallback".toList, "github-pages".toList⟩, tr)

/-! ### Pipeline Sequencer (claims C1 and C2) -/

/-- Collaborator outcomes for one lead's pipeline run: the clock
(`Date.now()`), the scraping world, the Notion page creation, the GitHub
repository creation plus personalization (any failed step is wrapped in
`Repository creation failed:`), the Railway world, and the final
best-effort Notion update (whose failure is swallowed).  The ElevenLabs
agent phase builds strings only and cannot fail. -/
structure LeadWorld where
  time : Nat
  scrapeW : ScrapeWorld
  notionCreate : Except Str Str
  repoCreate : Except Str Repo
  railway : RailwayWorld
  notionUpdate : Except Str Unit

/-- One per-lead pipeline outcome (timing fields are not modelled). -/
structure PipelineResult where
  leadId : Str
  url : Str
  status : Str
  error : Option Str
  company : Option Str
  doctor : Option Str
  demoUrl : Option Str
  agentId : Option Str
  notionId : Option Str
  repositoryUrl : Option Str
deriving DecidableEq

def failedResult (leadId url msg : Str) : PipelineResult :=
  ⟨leadId, url, "failed".toList, some msg, none, none, none, none, none, none⟩

/-- `processHealthcareWebsite(websiteUrl)` (src/autonomous-agent.js:1006-1071):
the six phases in sequence; any thrown phase error is caught and turned
into a `failed` result; deployment and the final Notion update cannot
throw. -/
def processHealthcareWebsite (url : Str) (w : LeadWorld) : PipelineResult :=
  let leadId := "lead-".toList ++ (toString w.time).toList
  match scrapeHealthcareWebsite url w.scrapeW with
  | .error e => failedResult leadId url e
  | .ok scraped =>
    match w.notionCreate with
    | .error m => failedResult leadId url ("Notion storage failed: ".toList ++ m)
    | .ok notionPageId =>
      let agentId := "agent_".toList ++ (toString w.time).toList ++ "_".toList ++
        scraped.practiceId
      match w.repoCreate with
      | .error m => failedResult leadId url ("Repository creation failed: ".toList ++ m)
      | .ok repository =>
        let deployment := (deployToRailway scraped repository w.railway).1
        { leadId := leadId, url := url, status := "success".toList, error := none,
          company := some scraped.company, doctor := some scraped.contactName,
          demoUrl := some deployment.url, agentId := some agentId,
          notionId := some notionPageId, repositoryUrl := some repository.html_url }

/-- `executeAutonomousWorkflow(leadCount)` (src/autonomous-agent.js:934-1004):
an EXA failure or an empty candidate list aborts the run; otherwise every
candidate is processed in order and contributes exactly one result (the
loop's own catch also records a failure, but `processHealthcareWebsite`
already catches everything). -/
def executeAutonomousWorkflow (exa : Except Str (List (Str × LeadWorld))) :
    Except Str (List PipelineResult) :=
  match exa with
  | .error e => .error e
  | .ok practices =>
    if practices.isEmpty then .error "No healthcare practices found with EXA search".toList
    else .ok (practices.map fun pw => processHealthcareWebsite pw.1 pw.2)

/-! ### Facts about the failure discipline (claims C1, C2, C6) -/

theorem scrapeHealthcareWebsite_error (url : Str) (w : ScrapeWorld) (e : Str)
    (h : scrapeHealthcareWebsite url w = .error e) : e = "Invalid URL".toList := by
  rw [scrapeHealthcareWebsite] at h
  cases hh : w.parsedHost with
  | none =>
    rw [hh] at h
    rcases h with ⟨⟩
    rfl
  | some d =>
    rw [hh] at h
    dsimp only at h
    cases hf : w.fetchResult with
    | error e2 => rw [hf] at h; exact absurd h (by simp)
    | ok resp =>
      rw [hf] at h
      dsimp only at h
      by_cases hok : resp.ok = true
      · rw [if_pos hok] at h; exact absurd h (by simp)
      · rw [if_neg hok] at h; exact absurd h (by simp)

theorem processHealthcareWebsite_shape (url : Str) (w : LeadWorld) :
    ((processHealthcareWebsite url w).status = "success".toList ∨
      (processHealthcareWebsite url w).status = "failed".toList) ∧
    ((processHealthcareWebsite url w).status = "failed".toList →
      ∃ msg, (processHealthcareWebsite url w).error = some msg ∧ msg ≠ []) ∧
    ((processHealthcareWebsite url w).status = "success".toList →
      (processHealthcareWebsite url w).demoUrl.isSome ∧
      (processHealthcareWebsite url w).agentId.isSome ∧
      (processHealthcareWebsite url w).repositoryUrl.isSome) := by
  rw [processHealthcareWebsite]
  cases hs : scrapeHealthcareWebsite url w.scrapeW with
  | error e =>
    dsimp only [failedResult]
    have he := scrapeHealthcareWebsite_error url w.scrapeW e hs
    refine ⟨Or.inr rfl, fun _ => ⟨e, rfl, ?_⟩, fun hsucc => absurd hsucc (by decide)⟩
    rw [he]
    decide
  | ok scraped =>
    cases hn : w.notionCreate with
    | error m =>
      dsimp only [failedResult]
      exact ⟨Or.inr rfl, fun _ => ⟨_, rfl, List.cons_ne_nil _ _⟩,
        fun hsucc => absurd hsucc (by decide)⟩
    | ok pid =>
      cases hr : w.repoCreate with
      | error m =>
        dsimp only [failedResult]
        exact ⟨Or.inr rfl, fun _ => ⟨_, rfl, List.cons_ne_nil _ _⟩,
          fun hsucc => absurd hsucc (by decide)⟩
      | ok repo =>
        dsimp only
        exact ⟨Or.inl rfl, fun hf => absurd hf (by decide), fun _ => ⟨rfl, rfl, rfl⟩⟩

/-- C2: no single lead's failure aborts a batch: for a non-empty
candidate list the workflow returns exactly one result per candidate;
every failed entry carries a populated error message and every
successful entry carries a demo URL, agent id and repository URL. -/
theorem executeAutonomousWorkflow_spec (practices : List (Str × LeadWorld))
    (hne : practices ≠ []) :
    ∃ results : List PipelineResult,
      executeAutonomousWorkflow (.ok practices) = .ok results ∧
      results.length = practices.length ∧
      ∀ r ∈ results,
        (r.status = "success".toList ∨ r.status = "failed".toList) ∧
        (r.status = "failed".toList → ∃ msg, r.error = some msg ∧ msg ≠ []) ∧
        (r.status = "success".toList →
          r.demoUrl.isSome ∧ r.agentId.isSome ∧ r.repositoryUrl.isSome) := by
  refine ⟨practices.map fun pw => processHealthcareWebsite pw.1 pw.2, ?_, by simp, ?_⟩
  · rw [executeAutonomousWorkflow]
    rw [if_neg (by simpa using hne)]
  · intro r hr
    rcases List.mem_map.mp hr with ⟨pw, _, hpw⟩
    rw [← hpw]
    exact processHealthcareWebsite_shape pw.1 pw.2

theorem deployToRailway_fallback_of_error (practice : PracticeData) (repo : Repo)
    (w : RailwayWorld) (e : Str)
    (h : (deployOrchestrate practice repo w).1 = .error e) :
    (deployToRailway practice repo w).1 =
      ⟨githubPagesFallbackUrl repo, "fallback".toList, "github-pages".toList⟩ := by
  rw [deployToRailway]
  rcases hd : deployOrchestrate practice repo w with ⟨res, tr⟩
  rw [hd] at h
  dsimp only at h
  subst h
  rfl

/-- C1: if the whole deployment orchestration (CLI tier plus
structured-API tier) throws, `deployToRailway` returns the static
GitHub Pages fallback `https://<owner>.github.io/<repoName>` with status
`fallback` instead of propagating; and a lead whose other phases succeed
is still reported with pipeline status `success`, its demo URL being
that fallback URL. -/
theorem deployToRailway_static_fallback_spec :
    (∀ (practice : PracticeData) (repo : Repo) (w : RailwayWorld) (e : Str),
      (deployOrchestrate practice repo w).1 = .error e →
      (deployToRailway practice repo w).1 =
        ⟨githubPagesFallbackUrl repo, "fallback".toList, "github-pages".toList⟩) ∧
    (∀ (url : Str) (lw : LeadWorld) (p : PracticeData) (repo : Repo)
        (pageId : Str) (e : Str),
      scrapeHealthcareWebsite url lw.scrapeW = .ok p →
      lw.notionCreate = .ok pageId →
      lw.repoCreate = .ok repo →
      (deployOrchestrate p repo lw.railway).1 = .error e →
      (processHealthcareWebsite url lw).status = "success".toList ∧
      (processHealthcareWebsite url lw).demoUrl = some (githubPagesFallbackUrl repo)) := by
  refine ⟨deployToRailway_fallback_of_error, ?_⟩
  intro url lw p repo pageId e hs hn hr hd
  rw [processHealthcareWebsite, hs, hn, hr]
  dsimp only
  rw [deployToRailway_fallback_of_error p repo lw.railway e hd]
  exact ⟨rfl, rfl⟩

/-! Shared concrete collaborator worlds for the closed evaluations. -/

def sampleScrapeWorld : ScrapeWorld :=
  ⟨some "clinic.com".toList, .error "fetch failed".toList, .error (), .error (), 0, 0, 0⟩

def sampleRepo : Repo :=
  ⟨"clinic-demo-1".toList, "owner/clinic-demo-1".toList,
   "https://github.com/owner/clinic-demo-1".toList,
   "https://github.com/owner/clinic-demo-1.git".toList, "owner".toList⟩

def samplePractice : PracticeData :=
  ⟨"Clinic Clinic".toList, "Clinic Clinic Team".toList, "+1 100-100-1000".toList,
   "info@clinic.com".toList, "Unknown Location".toList, ["Healthcare Services".toList],
   "beauty".toList, "clinic".toList, "fallback-extraction".toList, 60,
   ⟨"#0066cc".toList, "#004499".toList⟩, none, true⟩

/-- A Railway world whose project creation already fails: the whole
orchestration throws. -/
def failingRailway : RailwayWorld :=
  ⟨.error "project create failed".toList, .ok [], .ok ⟨"svc".toList⟩,
   fun _ => .ok (), fun _ => .ok (), .error "cli down".toList, .error "gql down".toList⟩

/-- A Railway world where everything succeeds except the CLI domain
generation, whose GraphQL fallback succeeds. -/
def tier2Railway : RailwayWorld :=
  ⟨.ok ⟨"proj1".toList, "clinic-clinic-demo".toList⟩,
   .ok [⟨"env1".toList, "production".toList⟩], .ok ⟨"svc1".toList⟩,
   fun _ => .ok (), fun _ => .ok (), .error "cli down".toList,
   .ok "app.up.railway.app".toList⟩

/-- A Railway world where everything succeeds through the CLI tier. -/
def okRailway : RailwayWorld :=
  ⟨.ok ⟨"proj1".toList, "clinic-clinic-demo".toList⟩,
   .ok [⟨"env1".toList, "production".toList⟩], .ok ⟨"svc1".toList⟩,
   fun _ => .ok (), fun _ => .ok (), .ok "app.up.railway.app".toList,
   .ok "gql.up.railway.app".toList⟩

def sampleLeadWorldDeployFail : LeadWorld :=
  ⟨0, sampleScrapeWorld, .ok "page1".toList, .ok sampleRepo, failingRailway, .ok ()⟩

def sampleLeadWorldSuccess : LeadWorld :=
  ⟨1, sampleScrapeWorld, .ok "page2".toList, .ok sampleRepo, okRailway, .ok ()⟩

def sampleLeadWorldRepoFail : LeadWorld :=
  ⟨2, sampleScrapeWorld, .ok "page3".toList, .error "GitHub 403".toList, okRailway, .ok ()⟩

theorem deployToRailway_static_fallback_spec_witness :
    (processHealthcareWebsite "https://clinic.com".toList sampleLeadWorldDeployFail).status =
      "success".toList ∧
    (processHealthcareWebsite "https://clinic.com".toList sampleLeadWorldDeployFail).demoUrl =
      some (githubPagesFallbackUrl sampleRepo) :=
  deployToRailway_static_fallback_spec.2 "https://clinic.com".toList
    sampleLeadWorldDeployFail _ sampleRepo "page1".toList _ rfl rfl rfl rfl

theorem executeAutonomousWorkflow_spec_witness :
    ∃ results : List PipelineResult,
      executeAutonomousWorkflow (.ok
        [("https://a.com".toList, sampleLeadWorldRepoFail),
         ("https://b.com".toList, sampleLeadWorldSuccess)]) = .ok results ∧
      results.length =
        [("https://a.com".toList, sampleLeadWorldRepoFail),
         ("https://b.com".toList, sampleLeadWorldSuccess)].length ∧
      ∀ r ∈ results,
        (r.status = "success".toList ∨ r.status = "failed".toList) ∧
        (r.status = "failed".toList → ∃ msg, r.error = some msg ∧ msg ≠ []) ∧
        (r.status = "success".toList →
          r.demoUrl.isSome ∧ r.agentId.isSome ∧ r.repositoryUrl.isSome) :=
  executeAutonomousWorkflow_spec
    [("https://a.com".toList, sampleLeadWorldRepoFail),
     ("https://b.com".toList, sampleLeadWorldSuccess)] (by simp)

theorem gqlDomainCreate_not_mem_cliVarLoop (w : RailwayWorld) (sid p e s : Str) :
    ∀ ks : List Str, RAction.gqlDomainCreate p e s ∉ (cliVarLoop w sid ks).1 := by
  intro ks
  induction ks with
  | nil => simp [cliVarLoop]
  | cons k ks ih =>
    rw [cliVarLoop]
    cases w.cliVarSet k with
    | ok u =>
      dsimp only
      intro hmem
      rcases List.mem_cons.mp hmem with h | h
      · exact absurd h (by simp)
      · exact ih h
    | error er => simp

theorem gqlDomainCreate_not_mem_gqlVarLoop (w : RailwayWorld) (pid eid sid p e s : Str) :
    ∀ ks : List Str, RAction.gqlDomainCreate p e s ∉ gqlVarLoop w pid eid sid ks := by
  intro ks
  induction ks with
  | nil => simp [gqlVarLoop]
  | cons k ks ih =>
    rw [gqlVarLoop]
    cases w.gqlVariableUpsert k with
    | ok u =>
      dsimp only
      intro hmem
      rcases List.mem_cons.mp hmem with h | h
      · exact absurd h (by simp)
      · exact ih h
    | error er => simp

theorem gqlDomainCreate_not_mem_setVars (w : RailwayWorld) (pid eid sid p e s : Str) :
    RAction.gqlDomainCreate p e s ∉ railwaySetVariables w pid eid sid := by
  rw [railwaySetVariables]
  split
  · exact gqlDomainCreate_not_mem_cliVarLoop w sid p e s varKeys
  · intro hmem
    rcases List.mem_append.mp hmem with h | h
    · exact gqlDomainCreate_not_mem_cliVarLoop w sid p e s varKeys h
    · exact gqlDomainCreate_not_mem_gqlVarLoop w pid eid sid p e s varKeys h

/-- C6, amended: when tier 1 succeeds up to domain creation but the CLI
domain step fails and the structured-API (GraphQL) domain creation
succeeds, `deployToRailway` returns status `deployed` with the tier-2
domain value, and the GraphQL `domainCreate` mutation is issued against
the same project/environment/service identifiers; that mutation is
issued **only** when the CLI domain step fails.  (The structured-API
tier does **not** re-attempt variable setting — the GraphQL
`variableUpsert` fallback lives inside `railwaySetVariables` and is
triggered only by a CLI variable-set failure, see the counterexample.) -/
theorem deployToRailway_tier2_spec (practice : PracticeData) (repo : Repo)
    (w : RailwayWorld) (project : Project) (environments : List RailwayEnv)
    (prodEnv : RailwayEnv) (service : RailwayService)
    (hp : w.projectCreate = .ok project)
    (he : w.getEnvironments = .ok environments)
    (henv : (environments.find? (fun env => env.name == "production".toList)).orElse
      (fun _ => environments.head?) = some prodEnv)
    (hs : w.serviceCreate = .ok service) :
    (∀ e1 d, w.cliDomainGenerate = .error e1 → w.gqlDomainCreate = .ok d →
      (deployToRailway practice repo w).1 =
        ⟨"https://".toList ++ d, "deployed".toList, "railway-mcp-direct".toList⟩ ∧
      RAction.gqlDomainCreate project.id prodEnv.id service.id ∈
        (deployToRailway practice repo w).2) ∧
    (∀ d, w.cliDomainGenerate = .ok d →
      ∀ p e s, RAction.gqlDomainCreate p e s ∉ (deployToRailway practice repo w).2) := by
  constructor
  · intro e1 d hcli hgql
    rw [deployToRailway, deployOrchestrate, hp, he, hs]
    dsimp only
    rw [henv]
    dsimp only
    rw [railwayCreateDomain, hcli, hgql]
    dsimp only
    refine ⟨rfl, ?_⟩
    simp
  · intro d hcli p e s
    rw [deployToRailway, deployOrchestrate, hp, he, hs]
    dsimp only
    rw [henv]
    dsimp only
    rw [railwayCreateDomain, hcli]
    dsimp only
    intro hmem
    simp only [List.append_assoc, List.mem_append, List.mem_cons, List.mem_singleton,
      List.not_mem_nil] at hmem
    rcases hmem with (h | h) | h | h
    · exact absurd h (by simp)
    · exact absurd h (by simp)
    · exact absurd h (by simp)
    · rcases h with h | h
      · exact gqlDomainCreate_not_mem_setVars w project.id prodEnv.id service.id p e s
          (by simpa using h)
      · rcases h with h | h
        · exact absurd h (by simp)
        · exact h

theorem deployToRailway_tier2_spec_witness :
    ((deployToRailway samplePractice sampleRepo tier2Railway).1 =
      ⟨"https://".toList ++ "app.up.railway.app".toList, "deployed".toList,
        "railway-mcp-direct".toList⟩ ∧
    RAction.gqlDomainCreate "proj1".toList "env1".toList "svc1".toList ∈
      (deployToRailway samplePractice sampleRepo tier2Railway).2) :=
  (deployToRailway_tier2_spec samplePractice sampleRepo tier2Railway
      ⟨"proj1".toList, "clinic-clinic-demo".toList⟩ [⟨"env1".toList, "production".toList⟩]
      ⟨"env1".toList, "production".toList⟩ ⟨"svc1".toList⟩ rfl rfl rfl rfl).1
    "cli down".toList "app.up.railway.app".toList rfl rfl

/-- C6, counterexample to the claim as stated: with every CLI variable
set succeeding but the CLI domain step failing, the tier-2 GraphQL
domain fallback deploys — yet no GraphQL `variableUpsert` is ever
issued, so the secondary tier does not re-attempt variable setting. -/
theorem deployToRailway_tier2_counterexample :
    (deployToRailway samplePractice sampleRepo tier2Railway).1.status = "deployed".toList ∧
    ((deployToRailway samplePractice sampleRepo tier2Railway).2.all fun a =>
      match a with
      | RAction.gqlVariableUpsert _ _ _ _ => false
      | _ => true) = true := by
  decide

end Leadsprint
